import Mathlib

/-
Verification of the saber language front end (lexer and Pratt parser).

The embedding below is a shallow translation of the Rust sources:
  src/token/token.rs  - token kinds and the keyword table (the naming used by
                        the parser module: Var, Ret, Function with spellings
                        var, ret, def),
  src/lexer/mod.rs    - the character-level lexer (identical logic to
                        src/lexer/lexer.rs),
  src/ast/mod.rs      - the AST node types and their string() rendering,
  src/parser/mod.rs   - the recursive-descent / Pratt parser.

Rust side effects are made explicit: lexer and parser state records are
threaded through every function, and the result type Res distinguishes a
normal result, a panic (unwrap or expect failure), and fuel exhaustion of
the fueled loops (the Rust loops and recursion carry no fuel; a run that
returns noFuel for every fuel value is a diverging run of the original).
-/

namespace Saber

/-- Outcome of a stateful computation: normal value, Rust panic
(an unwrap or expect on a missing value), or fuel exhaustion. -/
inductive Res (α : Type) : Type
  | ok (a : α)
  | panic
  | noFuel
deriving DecidableEq

def Res.bind {α β : Type} : Res α → (α → Res β) → Res β
  | .ok a, f => f a
  | .panic, _ => .panic
  | .noFuel, _ => .noFuel

def Res.map {α β : Type} (f : α → β) : Res α → Res β
  | .ok a => .ok (f a)
  | .panic => .panic
  | .noFuel => .noFuel

@[simp] theorem Res.bind_ok {α β : Type} (a : α) (f : α → Res β) :
    Res.bind (.ok a) f = f a := rfl
@[simp] theorem Res.bind_panic {α β : Type} (f : α → Res β) :
    Res.bind (.panic : Res α) f = .panic := rfl
@[simp] theorem Res.bind_noFuel {α β : Type} (f : α → Res β) :
    Res.bind (.noFuel : Res α) f = .noFuel := rfl
@[simp] theorem Res.map_ok {α β : Type} (f : α → β) (a : α) :
    Res.map f (.ok a) = .ok (f a) := rfl
@[simp] theorem Res.map_panic {α β : Type} (f : α → β) :
    Res.map f (.panic : Res α) = .panic := rfl
@[simp] theorem Res.map_noFuel {α β : Type} (f : α → β) :
    Res.map f (.noFuel : Res α) = .noFuel := rfl

/-! ## Token model (src/token/token.rs) -/

/-- TokenType from src/token/token.rs (the variant set the parser module
dispatches on). -/
inductive TokenType : Type
  | Illegal
  | Eof
  | Ident
  | Int
  | Assign
  | Plus
  | Minus
  | Bang
  | Asterisk
  | Slash
  | Lt
  | Gt
  | Comma
  | Semicolon
  | Lparen
  | Rparen
  | Lbrace
  | Rbrace
  | Function
  | Var
  | True
  | False
  | If
  | Else
  | Ret
  | Eq
  | NotEq
deriving DecidableEq

/-- The text the derived Debug implementation prints for a TokenType
(used by the format! calls building diagnostics). -/
def tokenTypeDebug : TokenType → String
  | .Illegal => "Illegal"
  | .Eof => "Eof"
  | .Ident => "Ident"
  | .Int => "Int"
  | .Assign => "Assign"
  | .Plus => "Plus"
  | .Minus => "Minus"
  | .Bang => "Bang"
  | .Asterisk => "Asterisk"
  | .Slash => "Slash"
  | .Lt => "Lt"
  | .Gt => "Gt"
  | .Comma => "Comma"
  | .Semicolon => "Semicolon"
  | .Lparen => "Lparen"
  | .Rparen => "Rparen"
  | .Lbrace => "Lbrace"
  | .Rbrace => "Rbrace"
  | .Function => "Function"
  | .Var => "Var"
  | .True => "True"
  | .False => "False"
  | .If => "If"
  | .Else => "Else"
  | .Ret => "Ret"
  | .Eq => "Eq"
  | .NotEq => "NotEq"

/-- TokenType::lookup_ident: exact-match keyword table. -/
def lookup_ident (ident : String) : TokenType :=
  if ident = "def" then .Function
  else if ident = "var" then .Var
  else if ident = "true" then .True
  else if ident = "false" then .False
  else if ident = "if" then .If
  else if ident = "else" then .Else
  else if ident = "ret" then .Ret
  else .Ident

/-- Token struct: a kind together with its literal text. -/
structure Token where
  token_type : TokenType
  literal : String
deriving DecidableEq

/-! ## Lexer (src/lexer/mod.rs)

The Rust Lexer walks its input String with position/read_position used
both as indices into the chars() iterator (via nth) and as byte offsets
(compared against input.len() and used to slice input[a..b]).  The
model keeps the input as a list of chars and computes the Rust byte
length explicitly, so the char-index / byte-offset mismatch of the source
is preserved.  The identifier/number slices are taken at char indices;
for every input evaluated in a theorem below the relevant positions are
inside a pure-ASCII prefix, where char and byte offsets coincide. -/

/-- UTF-8 encoded size of one char, as Rust String::len counts it. -/
def utf8Size (c : Char) : Nat :=
  if c.toNat < 0x80 then 1
  else if c.toNat < 0x800 then 2
  else if c.toNat < 0x10000 then 3
  else 4

/-- Rust self.input.len(): the byte length of the input. -/
def byteLen (input : List Char) : Nat :=
  (input.map utf8Size).sum

/-- Model of Rust char::is_whitespace: the Unicode White_Space code
points, listed in full. -/
def rustIsWhitespace (c : Char) : Bool :=
  let n := c.toNat
  n = 0x09 || n = 0x0A || n = 0x0B || n = 0x0C || n = 0x0D || n = 0x20 ||
  n = 0x85 || n = 0xA0 || n = 0x1680 || (0x2000 ≤ n && n ≤ 0x200A) ||
  n = 0x2028 || n = 0x2029 || n = 0x202F || n = 0x205F || n = 0x3000

/-- Model of Rust char::is_alphabetic on the Basic Latin and Latin-1
blocks (exact there per the Unicode Alphabetic property).  For code
points at 0x100 and above the model answers false while Rust consults
the full Unicode table; no theorem below feeds such a character to the
lexer. -/
def rustIsAlphabetic (c : Char) : Bool :=
  let n := c.toNat
  (0x41 ≤ n && n ≤ 0x5A) || (0x61 ≤ n && n ≤ 0x7A) ||
  n = 0xAA || n = 0xB5 || n = 0xBA ||
  (0xC0 ≤ n && n ≤ 0xD6) || (0xD8 ≤ n && n ≤ 0xF6) || (0xF8 ≤ n && n ≤ 0xFF)

/-- Lexer state: the struct Lexer fields. -/
structure LexState where
  input : List Char
  position : Nat
  read_position : Nat
  ch : Char
deriving DecidableEq

/-- Lexer::read_char.  The bounds check compares read_position with the
byte length, but the character fetched is chars().nth(read_position);
when the two disagree the .expect of the source panics. -/
def read_char (s : LexState) : Res LexState :=
  if s.read_position ≥ byteLen s.input then
    .ok { s with ch := '\x00', position := s.read_position, read_position := s.read_position + 1 }
  else
    match s.input.get? s.read_position with
    | some c => .ok { s with ch := c, position := s.read_position, read_position := s.read_position + 1 }
    | none => .panic

/-- Lexer::peek_char, with the same panic possibility. -/
def peek_char (s : LexState) : Res Char :=
  if s.read_position ≥ byteLen s.input then .ok '\x00'
  else
    match s.input.get? s.read_position with
    | some c => .ok c
    | none => .panic

/-- Lexer::new. -/
def lexer_new (input : List Char) : Res LexState :=
  read_char { input := input, position := 0, read_position := 0, ch := '\x00' }

/-- Lexer::is_letter. -/
def is_letter (s : LexState) : Bool :=
  rustIsAlphabetic s.ch || s.ch = '_'

/-- The while loop of Lexer::skip_whitespace, fueled.  All fueled loops
below recurse by an explicit Nat.rec so that applications reduce by
plain iota steps. -/
def skip_whitespace (fuel : Nat) : LexState → Res LexState :=
  Nat.rec (motive := fun _ => LexState → Res LexState)
    (fun s => if rustIsWhitespace s.ch then .noFuel else .ok s)
    (fun _ prev s =>
      if rustIsWhitespace s.ch then (read_char s).bind prev else .ok s)
    fuel

/-- Slice input[a..b] of the source, at char indices (see the module
comment above). -/
def sliceStr (a b : Nat) (input : List Char) : String :=
  String.mk ((input.drop a).take (b - a))

/-- The while loop of Lexer::read_identifier, fueled. -/
def read_identifier_loop (fuel : Nat) : LexState → Res LexState :=
  Nat.rec (motive := fun _ => LexState → Res LexState)
    (fun s => if is_letter s then .noFuel else .ok s)
    (fun _ prev s => if is_letter s then (read_char s).bind prev else .ok s)
    fuel

/-- Lexer::read_identifier. -/
def read_identifier (fuel : Nat) (s : LexState) : Res (String × LexState) :=
  (read_identifier_loop fuel s).map fun s2 =>
    (sliceStr s.position s2.position s.input, s2)

/-- The while loop of Lexer::read_number, fueled. -/
def read_number_loop (fuel : Nat) : LexState → Res LexState :=
  Nat.rec (motive := fun _ => LexState → Res LexState)
    (fun s => if s.ch.isDigit then .noFuel else .ok s)
    (fun _ prev s => if s.ch.isDigit then (read_char s).bind prev else .ok s)
    fuel

/-- Lexer::read_number. -/
def read_number (fuel : Nat) (s : LexState) : Res (String × LexState) :=
  (read_number_loop fuel s).map fun s2 =>
    (sliceStr s.position s2.position s.input, s2)

/-- Internal fuel for the two lexer loops of a single next_token call;
ample for every reachable state (each loop iteration consumes one input
position). -/
def lexFuel (s : LexState) : Nat :=
  byteLen s.input + 2

/-- Shared tail of the single-character match arms: build the token,
then read_char once, then return the token. -/
def emitTok (tok : Token) (s : LexState) : Res (Token × LexState) :=
  (read_char s).map fun s2 => (tok, s2)

/-- Lexer::next_token.  The Rust match on self.ch is rendered as a chain
of character comparisons in source order; the identifier and number arms
return early without the trailing read_char, exactly as in the source. -/
def next_token (s0 : LexState) : Res (Token × LexState) :=
  (skip_whitespace (lexFuel s0) s0).bind fun s =>
  if s.ch = '=' then
    (peek_char s).bind fun pc =>
      if pc = '=' then
        (read_char s).bind fun s1 => emitTok ⟨.Eq, "=="⟩ s1
      else emitTok ⟨.Assign, "="⟩ s
  else if s.ch = ';' then emitTok ⟨.Semicolon, ";"⟩ s
  else if s.ch = '(' then emitTok ⟨.Lparen, "("⟩ s
  else if s.ch = ')' then emitTok ⟨.Rparen, ")"⟩ s
  else if s.ch = ',' then emitTok ⟨.Comma, ","⟩ s
  else if s.ch = '+' then emitTok ⟨.Plus, "+"⟩ s
  else if s.ch = '-' then emitTok ⟨.Minus, "-"⟩ s
  else if s.ch = '!' then
    (peek_char s).bind fun pc =>
      if pc = '=' then
        (read_char s).bind fun s1 => emitTok ⟨.NotEq, "!="⟩ s1
      else emitTok ⟨.Bang, "!"⟩ s
  else if s.ch = '*' then emitTok ⟨.Asterisk, "*"⟩ s
  else if s.ch = '/' then emitTok ⟨.Slash, "/"⟩ s
  else if s.ch = '<' then emitTok ⟨.Lt, "<"⟩ s
  else if s.ch = '>' then emitTok ⟨.Gt, ">"⟩ s
  else if s.ch = '{' then emitTok ⟨.Lbrace, "\x7b"⟩ s
  else if s.ch = '}' then emitTok ⟨.Rbrace, "\x7d"⟩ s
  else if s.ch = '\x00' then emitTok ⟨.Eof, "\x00"⟩ s
  else if is_letter s then
    (read_identifier (lexFuel s0) s).map fun (lit, s2) =>
      (⟨lookup_ident lit, lit⟩, s2)
  else if s.ch.isDigit then
    (read_number (lexFuel s0) s).map fun (lit, s2) => (⟨.Int, lit⟩, s2)
  else emitTok ⟨.Illegal, String.mk [s.ch]⟩ s

/-! ## AST (src/ast/mod.rs)

The node structs, with the names the parser module uses (VarStatement and
RetStatement are the ForgeStatement/IgniteStatement shapes of
src/ast/mod.rs).  BlockStatement also implements Statement in Rust, but
no parser path stores a block in a statement list, so it is kept as its
own type here. -/

/-- The Identifier node. -/
structure Identifier where
  token : Token
  value : String
deriving DecidableEq

mutual
/-- Expression nodes. -/
inductive Expr : Type
  | identifier (i : Identifier)
  | integerLiteral (token : Token) (value : Int)
  | prefixExpression (token : Token) (operator : String) (right : Option Expr)
  | infixExpression (token : Token) (left : Option Expr) (operator : String)
      (right : Option Expr)
  | boolean (token : Token) (value : Bool)
  | ifExpression (token : Token) (condition : Option Expr)
      (consequence : Option Block) (alternative : Option Block)
  | functionLiteral (token : Token) (parameters : List Identifier)
      (body : Option Block)
  | callExpression (token : Token) (function : Option Expr)
      (arguments : List Expr)

/-- Statement nodes. -/
inductive Stmt : Type
  | varStatement (token : Token) (name : Identifier) (value : Option Expr)
  | retStatement (token : Token) (return_value : Option Expr)
  | expressionStatement (token : Token) (expression : Option Expr)

/-- The BlockStatement node. -/
inductive Block : Type
  | mk (token : Token) (statements : List Stmt)
end

/-- Program: an ordered sequence of statements. -/
structure Program where
  statements : List Stmt

/-- Identifier::string. -/
def Identifier.string (i : Identifier) : String := i.value

mutual
/-- The string() rendering of an expression node, following each
push_str sequence of src/ast/mod.rs. -/
def exprString : Expr → String
  | .identifier i => i.string
  | .integerLiteral token _ => token.literal
  | .prefixExpression _ operator right =>
      "(" ++ operator ++ optExprString right ++ ")"
  | .infixExpression _ left operator right =>
      "(" ++ optExprString left ++ " " ++ operator ++ " " ++
        optExprString right ++ ")"
  | .boolean token _ => token.literal
  | .ifExpression _ condition consequence alternative =>
      "if" ++ " " ++ optExprString condition ++ " " ++
        optBlockString consequence ++
        (match alternative with
         | some a => "else " ++ blockString a
         | none => "")
  | .functionLiteral token parameters body =>
      token.literal ++ "(" ++
        String.intercalate ", " (parameters.map Identifier.string) ++ ")" ++
        optBlockString body
  | .callExpression _ function arguments =>
      optExprString function ++ "(" ++
        String.intercalate ", " (exprStrings arguments) ++ ")"

/-- Rendering of an optional expression: absent renders as nothing. -/
def optExprString : Option Expr → String
  | some e => exprString e
  | none => ""

/-- Rendering of an argument list, element by element. -/
def exprStrings : List Expr → List String
  | [] => []
  | e :: es => exprString e :: exprStrings es

/-- The string() rendering of a statement node. -/
def stmtString : Stmt → String
  | .varStatement token name value =>
      token.literal ++ " " ++ name.value ++ " = " ++ optExprString value ++ ";"
  | .retStatement token return_value =>
      token.literal ++ " " ++ optExprString return_value ++ ";"
  | .expressionStatement _ expression => optExprString expression

/-- BlockStatement::string: concatenation of its statements. -/
def blockString : Block → String
  | .mk _ statements => stmtsString statements

/-- Rendering of an optional block: absent renders as nothing. -/
def optBlockString : Option Block → String
  | some b => blockString b
  | none => ""

/-- Concatenation of the renderings of a statement list. -/
def stmtsString : List Stmt → String
  | [] => ""
  | s :: ss => stmtString s ++ stmtsString ss
end

/-- Program::string: concatenation of the statements. -/
def programString (p : Program) : String :=
  stmtsString p.statements

/-! ## Parser (src/parser/mod.rs)

The Parser struct owns the lexer and the current/peek token pair and
accumulates diagnostics.  The prefix and infix dispatch HashMaps hold
exactly the entries registered in Parser::new; they are modelled by the
membership tests hasPrefixFn / hasInfixFn and a dispatch on the token
kind.  Every Rust loop and every recursive descent call is fueled; fuel
is spent one unit per nested call or loop iteration. -/

/-- Precedence, in the declaration order that derive(PartialOrd) uses. -/
inductive Precedence : Type
  | Lowest
  | Equals
  | LessGreater
  | Sum
  | Product
  | Prefix
  | Call
deriving DecidableEq

/-- Numeric rank of a precedence (its declaration index). -/
def precValue : Precedence → Nat
  | .Lowest => 0
  | .Equals => 1
  | .LessGreater => 2
  | .Sum => 3
  | .Product => 4
  | .Prefix => 5
  | .Call => 6

/-- The strict order of derive(PartialOrd) on Precedence. -/
def precLt (a b : Precedence) : Bool :=
  decide (precValue a < precValue b)

/-- The PRECEDENCES table. -/
def PRECEDENCES : List (TokenType × Precedence) :=
  [(.Eq, .Equals), (.NotEq, .Equals), (.Lt, .LessGreater), (.Gt, .LessGreater),
   (.Plus, .Sum), (.Minus, .Sum), (.Slash, .Product), (.Asterisk, .Product)]

/-- First matching entry of PRECEDENCES, defaulting to Lowest, as in
peek_precedence / current_precedence. -/
def precedenceFor (t : TokenType) : Precedence :=
  match PRECEDENCES.find? (fun pr => pr.1 == t) with
  | some pr => pr.2
  | none => .Lowest

/-- Parser state: the Parser struct fields (the two dispatch tables are
the fixed registrations of Parser::new, modelled by hasPrefixFn and
hasInfixFn below). -/
structure ParserState where
  lexer : LexState
  current_token : Token
  peek_token : Token
  errors : List String
deriving DecidableEq

/-- Parser::current_token_is. -/
def current_token_is (p : ParserState) (t : TokenType) : Bool :=
  p.current_token.token_type == t

/-- Parser::peek_token_is. -/
def peek_token_is (p : ParserState) (t : TokenType) : Bool :=
  p.peek_token.token_type == t

/-- Parser::peek_precedence. -/
def peek_precedence (p : ParserState) : Precedence :=
  precedenceFor p.peek_token.token_type

/-- Parser::current_precedence. -/
def current_precedence (p : ParserState) : Precedence :=
  precedenceFor p.current_token.token_type

/-- Parser::next_token: shift peek into current and pull one token from
the lexer. -/
def parser_next_token (p : ParserState) : Res ParserState :=
  (next_token p.lexer).map fun (tok, l2) =>
    { p with lexer := l2, current_token := p.peek_token, peek_token := tok }

/-- Parser::new: pull the first two tokens. -/
def parser_new (input : List Char) : Res ParserState :=
  (lexer_new input).bind fun l0 =>
  (next_token l0).bind fun (cur, l1) =>
  (next_token l1).map fun (pk, l2) =>
    { lexer := l2, current_token := cur, peek_token := pk, errors := [] }

/-- Parser::peek_error: push the expect diagnostic. -/
def peek_error (t : TokenType) (p : ParserState) : ParserState :=
  { p with errors := p.errors ++
      ["expected next token to be " ++ tokenTypeDebug t ++ ", got " ++
       tokenTypeDebug p.peek_token.token_type ++ " instead"] }

/-- Parser::expect_peek: consume on match, record peek_error and leave
the tokens untouched on mismatch. -/
def expect_peek (t : TokenType) (p : ParserState) : Res (Bool × ParserState) :=
  if peek_token_is p t then
    (parser_next_token p).map fun p2 => (true, p2)
  else
    .ok (false, peek_error t p)

/-- Parser::no_prefix_parse_fn_error. -/
def no_prefix_parse_fn_error (t : TokenType) (p : ParserState) : ParserState :=
  { p with errors := p.errors ++
      ["no prefix parse function for " ++ tokenTypeDebug t ++ " found"] }

/-- The keys registered in prefix_parse_fns by Parser::new. -/
def hasPrefixFn : TokenType → Bool
  | .Ident | .Int | .Bang | .Minus | .True | .False | .Lparen | .If
  | .Function => true
  | _ => false

/-- The keys registered in infix_parse_fns by Parser::new. -/
def hasInfixFn : TokenType → Bool
  | .Plus | .Minus | .Slash | .Asterisk | .Eq | .NotEq | .Lt | .Gt => true
  | _ => false

/-- Rust str::parse::<i64>: optional sign, at least one ASCII digit,
value within the 64-bit signed range. -/
def parseI64 (s : String) : Option Int :=
  match s.data with
  | [] => none
  | c :: rest =>
    let signed : Bool × List Char :=
      if c = '-' then (true, rest)
      else if c = '+' then (false, rest) else (false, c :: rest)
    match signed with
    | (neg, digits) =>
      if digits.isEmpty then none
      else if digits.all Char.isDigit then
        let n : Nat := digits.foldl (fun acc d => acc * 10 + (d.toNat - 48)) 0
        if neg then
          if n ≤ 2 ^ 63 then some (-(n : Int)) else none
        else
          if n ≤ 2 ^ 63 - 1 then some (n : Int) else none
      else none

/-- Parser::parse_identifier: builds an Identifier node, no state
change. -/
def parse_identifier (p : ParserState) : Option Expr :=
  some (.identifier ⟨p.current_token, p.current_token.literal⟩)

/-- Parser::parse_integer_literal: converts the literal text; on
conversion failure it returns None without recording any diagnostic. -/
def parse_integer_literal (p : ParserState) : Option Expr :=
  match parseI64 p.current_token.literal with
  | some value => some (.integerLiteral p.current_token value)
  | none => none

/-- Parser::parse_boolean: builds an Identifier node whose value is the
stringified comparison current_token_is(True); the Boolean AST node is
never constructed. -/
def parse_boolean (p : ParserState) : Option Expr :=
  some (.identifier ⟨p.current_token,
    if current_token_is p .True then "true" else "false"⟩)

/-- The skip-to-semicolon loop shared by parse_var_statement and
parse_ret_statement (the TODO-marked while loops), fueled. -/
def skipToSemicolon (fuel : Nat) : ParserState → Res ParserState :=
  Nat.rec (motive := fun _ => ParserState → Res ParserState)
    (fun p => if current_token_is p .Semicolon then .ok p else .noFuel)
    (fun _ prev p =>
      if current_token_is p .Semicolon then .ok p
      else (parser_next_token p).bind prev)
    fuel

/-- Parser::parse_var_statement: expects Ident then Assign, then skips
tokens up to a semicolon and stores value: None. -/
def parse_var_statement (fuel : Nat) (p : ParserState) :
    Res (Option Stmt × ParserState) :=
  let token := p.current_token
  (expect_peek .Ident p).bind fun (ok1, p1) =>
  if !ok1 then .ok (none, p1)
  else
    let name : Identifier := ⟨p1.current_token, p1.current_token.literal⟩
    (expect_peek .Assign p1).bind fun (ok2, p2) =>
    if !ok2 then .ok (none, p2)
    else
      (skipToSemicolon fuel p2).bind fun p3 =>
      .ok (some (.varStatement token name none), p3)

/-- Parser::parse_ret_statement: advances past the keyword, then skips
tokens up to a semicolon and stores return_value: None. -/
def parse_ret_statement (fuel : Nat) (p : ParserState) :
    Res (Option Stmt × ParserState) :=
  let token := p.current_token
  (parser_next_token p).bind fun p1 =>
  (skipToSemicolon fuel p1).bind fun p2 =>
  .ok (some (.retStatement token none), p2)

/-- The comma loop of parse_function_parameters, fueled. -/
def paramsLoop (fuel : Nat) :
    List Identifier → ParserState → Res (List Identifier × ParserState) :=
  Nat.rec
    (motive := fun _ =>
      List Identifier → ParserState → Res (List Identifier × ParserState))
    (fun acc p => if peek_token_is p .Comma then .noFuel else .ok (acc, p))
    (fun _ prev acc p =>
      if peek_token_is p .Comma then
        (parser_next_token p).bind fun p1 =>
        (parser_next_token p1).bind fun p2 =>
        prev (acc ++ [⟨p2.current_token, p2.current_token.literal⟩]) p2
      else .ok (acc, p))
    fuel

/-- Parser::parse_function_parameters: builds an Identifier from
whatever token stands in parameter position, and returns an empty list
when the closing parenthesis is missing. -/
def parse_function_parameters (fuel : Nat) (p : ParserState) :
    Res (List Identifier × ParserState) :=
  if peek_token_is p .Rparen then
    (parser_next_token p).map fun p1 => ([], p1)
  else
    (parser_next_token p).bind fun p1 =>
    (paramsLoop fuel [⟨p1.current_token, p1.current_token.literal⟩] p1).bind
      fun (identifiers, p2) =>
    (expect_peek .Rparen p2).bind fun (okp, p3) =>
    if okp then .ok (identifiers, p3) else .ok ([], p3)

/-- The bundle of the mutually recursive parser functions at one fuel
level.  The recursion is tied by Nat.rec over the fuel below, so that an
application reduces by iota steps along the call path actually taken. -/
structure Fns where
  statement : ParserState → Res (Option Stmt × ParserState)
  exprStatement : ParserState → Res (Option Stmt × ParserState)
  expression : Precedence → ParserState → Res (Option Expr × ParserState)
  exprLoopF : Precedence → Expr → ParserState → Res (Option Expr × ParserState)
  callPrefix : TokenType → ParserState → Res (Option Expr × ParserState)
  prefixExpr : ParserState → Res (Option Expr × ParserState)
  infixExpr : Expr → ParserState → Res (Option Expr × ParserState)
  grouped : ParserState → Res (Option Expr × ParserState)
  ifExpr : ParserState → Res (Option Expr × ParserState)
  funcLit : ParserState → Res (Option Expr × ParserState)
  blockStmt : ParserState → Res (Option Block × ParserState)
  blockLoopF : Token → List Stmt → ParserState → Res (Option Block × ParserState)
  programLoop : List Stmt → ParserState → Res (Program × ParserState)

/-- Fuel-zero bundle: the functions that consult fuel first report
exhaustion; the while-loop bodies still honour an already-false loop
guard, exactly as the fueled loops above do. -/
def fnsZero : Fns where
  statement := fun _ => .noFuel
  exprStatement := fun _ => .noFuel
  expression := fun _ _ => .noFuel
  exprLoopF := fun precedence left_exp p =>
    if !peek_token_is p .Semicolon && precLt precedence (peek_precedence p)
    then .noFuel
    else .ok (some left_exp, p)
  callPrefix := fun _ _ => .noFuel
  prefixExpr := fun _ => .noFuel
  infixExpr := fun _ _ => .noFuel
  grouped := fun _ => .noFuel
  ifExpr := fun _ => .noFuel
  funcLit := fun _ => .noFuel
  blockStmt := fun _ => .noFuel
  blockLoopF := fun token acc p =>
    if !current_token_is p .Rbrace && !current_token_is p .Eof then .noFuel
    else .ok (some (.mk token acc), p)
  programLoop := fun acc p =>
    if current_token_is p .Eof then .ok (⟨acc⟩, p) else .noFuel

/-- One fuel level of the parser: each body is the direct translation of
the corresponding function of src/parser/mod.rs, with prev holding the
bundle one fuel level down. -/
def fnsStep (f : Nat) (prev : Fns) : Fns where
  /- Parser::parse_statement: dispatch on the current token kind. -/
  statement := fun p =>
    match p.current_token.token_type with
    | .Var => parse_var_statement f p
    | .Ret => parse_ret_statement f p
    | _ => prev.exprStatement p
  /- Parser::parse_expression_statement. -/
  exprStatement := fun p =>
    let token := p.current_token
    (prev.expression .Lowest p).bind fun (expression, p1) =>
    (if peek_token_is p1 .Semicolon then parser_next_token p1
     else .ok p1).bind fun p2 =>
    .ok (some (.expressionStatement token expression), p2)
  /- Parser::parse_expression: look up the prefix handler (recording the
  diagnostic and returning None when there is none), call it, unwrap its
  result (a panic when it produced no expression: line 368 of the
  source), then run the climbing loop. -/
  expression := fun precedence p =>
    if hasPrefixFn p.current_token.token_type then
      (prev.callPrefix p.current_token.token_type p).bind fun (left, p1) =>
      match left with
      | none => .panic
      | some left_exp => prev.exprLoopF precedence left_exp p1
    else
      .ok (none, no_prefix_parse_fn_error p.current_token.token_type p)
  /- The while loop of parse_expression.  The infix handler is looked up
  before the token is consumed; its result is unwrapped (line 380). -/
  exprLoopF := fun precedence left_exp p =>
    if !peek_token_is p .Semicolon && precLt precedence (peek_precedence p)
    then
      let hasInfix := hasInfixFn p.peek_token.token_type
      (parser_next_token p).bind fun p1 =>
      if hasInfix then
        (prev.infixExpr left_exp p1).bind fun (res, p2) =>
        match res with
        | none => .panic
        | some left2 => prev.exprLoopF precedence left2 p2
      else .ok (some left_exp, p1)
    else .ok (some left_exp, p)
  /- Dispatch to the prefix handler registered for a token kind; only
  reached under hasPrefixFn, the catch-all arm is unreachable. -/
  callPrefix := fun t p =>
    match t with
    | .Ident => .ok (parse_identifier p, p)
    | .Int => .ok (parse_integer_literal p, p)
    | .Bang => prev.prefixExpr p
    | .Minus => prev.prefixExpr p
    | .True => .ok (parse_boolean p, p)
    | .False => .ok (parse_boolean p, p)
    | .Lparen => prev.grouped p
    | .If => prev.ifExpr p
    | .Function => prev.funcLit p
    | _ => .panic
  /- Parser::parse_prefix_expression: consume the operator and parse the
  operand at Prefix precedence; returns None when the operand parse
  produced nothing. -/
  prefixExpr := fun p =>
    let token := p.current_token
    let operator := p.current_token.literal
    (parser_next_token p).bind fun p1 =>
    (prev.expression .Prefix p1).bind fun (right, p2) =>
    match right with
    | some r => .ok (some (.prefixExpression token operator (some r)), p2)
    | none => .ok (none, p2)
  /- Parser::parse_infix_expression: record the operator and its
  precedence, consume it, parse the right operand at that same
  precedence and unwrap it (line 151 of the source). -/
  infixExpr := fun left p =>
    let token := p.current_token
    let operator := p.current_token.literal
    let precedence := current_precedence p
    (parser_next_token p).bind fun p1 =>
    (prev.expression precedence p1).bind fun (right, p2) =>
    match right with
    | none => .panic
    | some r =>
        .ok (some (.infixExpression token (some left) operator (some r)), p2)
  /- Parser::parse_grouped_expression. -/
  grouped := fun p =>
    (parser_next_token p).bind fun p1 =>
    (prev.expression .Lowest p1).bind fun (exp, p2) =>
    (expect_peek .Rparen p2).bind fun (okp, p3) =>
    if !okp then .ok (none, p3) else .ok (exp, p3)
  /- Parser::parse_if_expression. -/
  ifExpr := fun p =>
    let token := p.current_token
    (expect_peek .Lparen p).bind fun (ok1, p1) =>
    if !ok1 then .ok (none, p1)
    else
      (parser_next_token p1).bind fun p2 =>
      (prev.expression .Lowest p2).bind fun (condition, p3) =>
      (expect_peek .Rparen p3).bind fun (ok2, p4) =>
      if !ok2 then .ok (none, p4)
      else
        (expect_peek .Lbrace p4).bind fun (ok3, p5) =>
        if !ok3 then .ok (none, p5)
        else
          (prev.blockStmt p5).bind fun (consequence, p6) =>
          if peek_token_is p6 .Else then
            (parser_next_token p6).bind fun p7 =>
            (expect_peek .Lbrace p7).bind fun (ok4, p8) =>
            if !ok4 then .ok (none, p8)
            else
              (prev.blockStmt p8).bind fun (alternative, p9) =>
              .ok (some (.ifExpression token condition consequence
                alternative), p9)
          else
            .ok (some (.ifExpression token condition consequence none), p6)
  /- Parser::parse_function_literal. -/
  funcLit := fun p =>
    let token := p.current_token
    (expect_peek .Lparen p).bind fun (ok1, p1) =>
    if !ok1 then .ok (none, p1)
    else
      (parse_function_parameters f p1).bind fun (parameters, p2) =>
      (expect_peek .Lbrace p2).bind fun (ok2, p3) =>
      if !ok2 then .ok (none, p3)
      else
        (prev.blockStmt p3).bind fun (body, p4) =>
        .ok (some (.functionLiteral token parameters body), p4)
  /- Parser::parse_block_statement: record the brace token then run the
  collection loop. -/
  blockStmt := fun p =>
    let token := p.current_token
    (parser_next_token p).bind fun p1 =>
    prev.blockLoopF token [] p1
  /- The while loop of parse_block_statement. -/
  blockLoopF := fun token acc p =>
    if !current_token_is p .Rbrace && !current_token_is p .Eof then
      (prev.statement p).bind fun (st, p1) =>
      (parser_next_token p1).bind fun p2 =>
      prev.blockLoopF token (acc ++ st.toList) p2
    else .ok (some (.mk token acc), p)
  /- The while loop of Parser::parse_program. -/
  programLoop := fun acc p =>
    if current_token_is p .Eof then .ok (⟨acc⟩, p)
    else
      (prev.statement p).bind fun (st, p1) =>
      (parser_next_token p1).bind fun p2 =>
      prev.programLoop (acc ++ st.toList) p2

/-- The parser functions at a given fuel. -/
def fns (fuel : Nat) : Fns :=
  Nat.rec fnsZero (fun f prev => fnsStep f prev) fuel

/-- Parser::parse_statement at a given fuel. -/
def parse_statement (fuel : Nat) (p : ParserState) :
    Res (Option Stmt × ParserState) :=
  (fns fuel).statement p

/-- Parser::parse_expression_statement at a given fuel. -/
def parse_expression_statement (fuel : Nat) (p : ParserState) :
    Res (Option Stmt × ParserState) :=
  (fns fuel).exprStatement p

/-- Parser::parse_expression at a given fuel. -/
def parse_expression (fuel : Nat) (precedence : Precedence)
    (p : ParserState) : Res (Option Expr × ParserState) :=
  (fns fuel).expression precedence p

/-- The climbing loop of parse_expression at a given fuel. -/
def exprLoop (fuel : Nat) (precedence : Precedence) (left_exp : Expr)
    (p : ParserState) : Res (Option Expr × ParserState) :=
  (fns fuel).exprLoopF precedence left_exp p

/-- The prefix-handler dispatch at a given fuel. -/
def callPrefixFn (fuel : Nat) (t : TokenType) (p : ParserState) :
    Res (Option Expr × ParserState) :=
  (fns fuel).callPrefix t p

/-- Parser::parse_prefix_expression at a given fuel. -/
def parse_prefix_expression (fuel : Nat) (p : ParserState) :
    Res (Option Expr × ParserState) :=
  (fns fuel).prefixExpr p

/-- Parser::parse_infix_expression at a given fuel. -/
def parse_infix_expression (fuel : Nat) (left : Expr) (p : ParserState) :
    Res (Option Expr × ParserState) :=
  (fns fuel).infixExpr left p

/-- Parser::parse_grouped_expression at a given fuel. -/
def parse_grouped_expression (fuel : Nat) (p : ParserState) :
    Res (Option Expr × ParserState) :=
  (fns fuel).grouped p

/-- Parser::parse_if_expression at a given fuel. -/
def parse_if_expression (fuel : Nat) (p : ParserState) :
    Res (Option Expr × ParserState) :=
  (fns fuel).ifExpr p

/-- Parser::parse_function_literal at a given fuel. -/
def parse_function_literal (fuel : Nat) (p : ParserState) :
    Res (Option Expr × ParserState) :=
  (fns fuel).funcLit p

/-- Parser::parse_block_statement at a given fuel. -/
def parse_block_statement (fuel : Nat) (p : ParserState) :
    Res (Option Block × ParserState) :=
  (fns fuel).blockStmt p

/-- The while loop of parse_block_statement, at a given fuel. -/
def blockLoop (fuel : Nat) (token : Token) (acc : List Stmt)
    (p : ParserState) : Res (Option Block × ParserState) :=
  (fns fuel).blockLoopF token acc p

/-- The while loop of Parser::parse_program, at a given fuel. -/
def parseProgramLoop (fuel : Nat) (acc : List Stmt) (p : ParserState) :
    Res (Program × ParserState) :=
  (fns fuel).programLoop acc p

/-- Parser::parse_program on a fresh parser for the given input. -/
def parse_program (fuel : Nat) (input : List Char) :
    Res (Program × ParserState) :=
  (parser_new input).bind fun p => parseProgramLoop fuel [] p

/-- Ample fuel for every concrete run below (the deepest run needs 14). -/
def defaultFuel : Nat := 16

/-- Run the parser and keep the statements and the diagnostics. -/
def runProgram (input : String) : Res (List Stmt × List String) :=
  (parse_program defaultFuel input.data).map fun (pr, p) =>
    (pr.statements, p.errors)

/-- Run the parser and render the program, as the REPL does. -/
def runString (input : String) : Res String :=
  (parse_program defaultFuel input.data).map fun (pr, _) => programString pr

/-- Run the parser and keep only the diagnostics. -/
def runErrors (input : String) : Res (List String) :=
  (parse_program defaultFuel input.data).map fun (_, p) => p.errors

/-! ## Single-step evaluation lemmas

Reducing a whole parse inside the definitional unifier duplicates
unevaluated state thunks, so the concrete runs below are chained through
explicit literal states instead; these lemmas perform one parser step at
a time. -/

/-- One fuel level of the bundle. -/
theorem fns_succ (f : Nat) : fns (f + 1) = fnsStep f (fns f) := rfl

/-- The spent bundle. -/
theorem fns_zero : fns 0 = fnsZero := rfl

/-- parse_program on a fresh parser is the program loop on the state the
two initial token pulls produce. -/
theorem parse_program_start (fuel : Nat) (input : List Char)
    (p : ParserState) (h : parser_new input = .ok p) :
    parse_program fuel input = parseProgramLoop fuel [] p := by
  simp [parse_program, h, parseProgramLoop]

/-- The program loop stops at Eof. -/
theorem programLoop_done (fuel : Nat) (acc : List Stmt) (p : ParserState)
    (h : current_token_is p .Eof = true) :
    parseProgramLoop fuel acc p = .ok (⟨acc⟩, p) := by
  cases fuel with
  | zero => simp [parseProgramLoop, fns, fnsZero, h]
  | succ f => simp [parseProgramLoop, fns_succ, fnsStep, h]

/-- One round of the program loop: parse one statement, advance, and
continue with the statement appended. -/
theorem programLoop_step (f : Nat) (acc : List Stmt) (p p9 p10 : ParserState)
    (st : Option Stmt)
    (hne : current_token_is p .Eof = false)
    (h1 : parse_statement f p = .ok (st, p9))
    (h2 : parser_next_token p9 = .ok p10) :
    parseProgramLoop (f + 1) acc p = parseProgramLoop f (acc ++ st.toList) p10
    := by
  simp [parseProgramLoop, fns_succ, fnsStep, hne, parse_statement.eq_def] at h1 ⊢
  simp [h1, h2]

/-- parse_expression_statement around a finished expression parse, when
no trailing semicolon follows. -/
theorem exprStatement_step (f : Nat) (p pf : ParserState) (e : Option Expr)
    (h : parse_expression f .Lowest p = .ok (e, pf))
    (hs : peek_token_is pf .Semicolon = false) :
    parse_expression_statement (f + 1) p =
      .ok (some (.expressionStatement p.current_token e), pf) := by
  simp [parse_expression_statement, fns_succ, fnsStep,
    parse_expression.eq_def] at h ⊢
  simp [h, hs]

/-- parse_expression_statement around a finished expression parse, when
a trailing semicolon is consumed. -/
theorem exprStatement_step_semi (f : Nat) (p pf p2 : ParserState)
    (e : Option Expr)
    (h : parse_expression f .Lowest p = .ok (e, pf))
    (hs : peek_token_is pf .Semicolon = true)
    (ha : parser_next_token pf = .ok p2) :
    parse_expression_statement (f + 1) p =
      .ok (some (.expressionStatement p.current_token e), p2) := by
  simp [parse_expression_statement, fns_succ, fnsStep,
    parse_expression.eq_def] at h ⊢
  simp [h, hs, ha]

/-- parse_expression hands the prefix handler result to the climbing
loop. -/
theorem expression_step (f : Nat) (precedence : Precedence)
    (p p1 : ParserState) (e : Expr)
    (hp : hasPrefixFn p.current_token.token_type = true)
    (hc : callPrefixFn f p.current_token.token_type p = .ok (some e, p1)) :
    parse_expression (f + 1) precedence p = exprLoop f precedence e p1 := by
  simp [parse_expression, fns_succ, fnsStep, callPrefixFn.eq_def] at hc ⊢
  simp [hp, hc, exprLoop]

/-- The climbing loop stops when the lookahead is a semicolon or does
not bind tighter. -/
theorem exprLoop_done (fuel : Nat) (precedence : Precedence) (e : Expr)
    (p : ParserState)
    (hg : (!peek_token_is p .Semicolon &&
      precLt precedence (peek_precedence p)) = false) :
    exprLoop fuel precedence e p = .ok (some e, p) := by
  cases fuel with
  | zero =>
      simp only [exprLoop, fns_zero, fnsZero]
      rw [hg]
      simp
  | succ f =>
      simp only [exprLoop, fns_succ, fnsStep]
      rw [hg]
      simp

/-- One iteration of the climbing loop through a registered infix
handler. -/
theorem exprLoop_iter (f : Nat) (precedence : Precedence) (e e2 : Expr)
    (p p1 p2 : ParserState)
    (hg : (!peek_token_is p .Semicolon &&
      precLt precedence (peek_precedence p)) = true)
    (hreg : hasInfixFn p.peek_token.token_type = true)
    (ha : parser_next_token p = .ok p1)
    (hi : parse_infix_expression f e p1 = .ok (some e2, p2)) :
    exprLoop (f + 1) precedence e p = exprLoop f precedence e2 p2 := by
  simp only [parse_infix_expression] at hi
  simp only [exprLoop, fns_succ, fnsStep]
  rw [hg]
  simp [hreg, ha, hi]

/-- parse_infix_expression around a finished right-operand parse. -/
theorem infix_step (f : Nat) (e r : Expr) (p p1 p2 : ParserState)
    (ha : parser_next_token p = .ok p1)
    (hr : parse_expression f (current_precedence p) p1 = .ok (some r, p2)) :
    parse_infix_expression (f + 1) e p =
      .ok (some (.infixExpression p.current_token (some e)
        p.current_token.literal (some r)), p2) := by
  simp [parse_infix_expression, fns_succ, fnsStep,
    parse_expression.eq_def] at hr ⊢
  simp [ha, hr]

/-- parse_grouped_expression around a finished inner parse followed by
the required closing parenthesis. -/
theorem grouped_step (f : Nat) (p p1 p3 pf : ParserState) (e : Option Expr)
    (ha : parser_next_token p = .ok p1)
    (h : parse_expression f .Lowest p1 = .ok (e, pf))
    (hx : expect_peek .Rparen pf = .ok (true, p3)) :
    parse_grouped_expression (f + 1) p = .ok (e, p3) := by
  simp only [parse_expression] at h
  simp only [parse_grouped_expression, fns_succ, fnsStep]
  simp [ha, h, hx]

/-- parse_function_literal around finished parameter-list and body
parses. -/
theorem funcLit_step (f : Nat) (p p1 p2 p3 p4 : ParserState)
    (ids : List Identifier) (blk : Option Block)
    (h1 : expect_peek .Lparen p = .ok (true, p1))
    (h2 : parse_function_parameters f p1 = .ok (ids, p2))
    (h3 : expect_peek .Lbrace p2 = .ok (true, p3))
    (h4 : parse_block_statement f p3 = .ok (blk, p4)) :
    parse_function_literal (f + 1) p =
      .ok (some (.functionLiteral p.current_token ids blk), p4) := by
  simp [parse_function_literal, fns_succ, fnsStep,
    parse_block_statement.eq_def] at h4 ⊢
  simp [h1, h2, h3, h4]

/-! ## Claims -/

/-- Claim C1: the claim states that no parser operation throws or panics
and that every parse failure becomes a diagnostic plus a None result.
The code violates this: parse_expression unwraps the result of the
prefix handler, and on the input consisting of a bang followed by a
semicolon the handler for the bang parses its operand at Prefix
precedence, finds no prefix handler for the semicolon and returns None,
which the unwrap at line 368 of src/parser/mod.rs turns into a panic. -/
theorem c1_parse_panics_on_bang_semicolon :
    runProgram "!;" = Res.panic := by rfl

/-- Claim C2: the claim states that next_token never fails on any
complete UTF-8 input.  The code violates this on any input holding a
character outside ASCII: on the single inverted question mark (U+00BF,
two UTF-8 bytes) the lexer emits the Illegal token and then read_char
compares read_position 1 against the byte length 2, concludes there is
more input, asks chars().nth(1) for a second character that does not
exist, and the expect in read_char panics. -/
theorem c2_next_token_panics_on_nonascii :
    (lexer_new "¿".data).bind next_token = Res.panic := by rfl

/-- Claim C3: the claim states that parse_var_statement and
parse_ret_statement parse the bound or returned value as a full
expression and store it.  The code instead skips every token up to the
semicolon (the TODO-marked loops) and stores None in the value and
return_value fields, recording no diagnostic. -/
theorem c3_var_and_ret_discard_value :
    runProgram "var x = 5;" =
      .ok ([.varStatement ⟨.Var, "var"⟩ ⟨⟨.Ident, "x"⟩, "x"⟩ none], []) ∧
    runProgram "ret 5;" =
      .ok ([.retStatement ⟨.Ret, "ret"⟩ none], []) := by
  exact ⟨by rfl, by rfl⟩

/-- Claim C5: the claim states that an integer literal that does not fit
a 64-bit signed value produces the could-not-parse diagnostic and no
expression.  The code returns None from parse_integer_literal without
recording anything, and the unwrap in parse_expression then panics, so
the whole parse of the overflowing literal panics with an empty
diagnostics list. -/
theorem c5_integer_overflow_silent_then_panic :
    (parser_new "9223372036854775808".data).map
        (fun p => (parse_integer_literal p, p.errors)) = .ok (none, []) ∧
    runProgram "9223372036854775808" = Res.panic := by
  exact ⟨by rfl, by rfl⟩

set_option maxHeartbeats 1000000 in
/-- Round-trip helper: the single literal. -/
theorem roundTrip1 : runString "5" = .ok "5" := by rfl

set_option maxHeartbeats 1000000 in
/-- Round-trip helper: unary minus binds tighter than product. -/
theorem roundTrip2 : runString "-a * b" = .ok "((-a) * b)" := by rfl

/-- Input of the sum-chain example. -/
def addInp : List Char := "a + b + c".data

/-- Parser states along the sum-chain run, after zero to five token
advances. -/
def addP0 : ParserState := ⟨⟨addInp, 3, 4, ' '⟩, ⟨.Ident, "a"⟩, ⟨.Plus, "+"⟩, []⟩

/-- Sum-chain run state 1. -/
def addP1 : ParserState := ⟨⟨addInp, 5, 6, ' '⟩, ⟨.Plus, "+"⟩, ⟨.Ident, "b"⟩, []⟩

/-- Sum-chain run state 2. -/
def addP2 : ParserState := ⟨⟨addInp, 7, 8, ' '⟩, ⟨.Ident, "b"⟩, ⟨.Plus, "+"⟩, []⟩

/-- Sum-chain run state 3. -/
def addP3 : ParserState := ⟨⟨addInp, 9, 10, '\x00'⟩, ⟨.Plus, "+"⟩, ⟨.Ident, "c"⟩, []⟩

/-- Sum-chain run state 4. -/
def addP4 : ParserState := ⟨⟨addInp, 10, 11, '\x00'⟩, ⟨.Ident, "c"⟩, ⟨.Eof, "\x00"⟩, []⟩

/-- Sum-chain run state 5. -/
def addP5 : ParserState := ⟨⟨addInp, 11, 12, '\x00'⟩, ⟨.Eof, "\x00"⟩, ⟨.Eof, "\x00"⟩, []⟩

/-- AST pieces of the sum-chain example. -/
def addEa : Expr := .identifier ⟨⟨.Ident, "a"⟩, "a"⟩

/-- Identifier b of the sum-chain example. -/
def addEb : Expr := .identifier ⟨⟨.Ident, "b"⟩, "b"⟩

/-- Identifier c of the sum-chain example. -/
def addEc : Expr := .identifier ⟨⟨.Ident, "c"⟩, "c"⟩

/-- The left-grouped first sum. -/
def addE1 : Expr := .infixExpression ⟨.Plus, "+"⟩ (some addEa) "+" (some addEb)

/-- The full left-grouped sum chain. -/
def addE2 : Expr := .infixExpression ⟨.Plus, "+"⟩ (some addE1) "+" (some addEc)

set_option maxHeartbeats 1000000 in
/-- Round-trip helper: same-precedence sum chain groups left. -/
theorem roundTrip3 : runString "a + b + c" = .ok "((a + b) + c)" := by
  have h0 : parser_new ("a + b + c".data) = .ok addP0 := by rfl
  have hb : parse_expression 10 .Sum addP2 = .ok (some addEb, addP2) :=
    (expression_step 9 .Sum addP2 addP2 addEb rfl rfl).trans
      (exprLoop_done 9 .Sum addEb addP2 rfl)
  have hi1 : parse_infix_expression 11 addEa addP1 = .ok (some addE1, addP2) :=
    infix_step 10 addEa addEb addP1 addP2 addP2 rfl hb
  have it1 : exprLoop 12 .Lowest addEa addP0 = exprLoop 11 .Lowest addE1 addP2 :=
    exprLoop_iter 11 .Lowest addEa addE1 addP0 addP1 addP2 rfl rfl rfl hi1
  have hc4 : parse_expression 9 .Sum addP4 = .ok (some addEc, addP4) :=
    (expression_step 8 .Sum addP4 addP4 addEc rfl rfl).trans
      (exprLoop_done 8 .Sum addEc addP4 rfl)
  have hi2 : parse_infix_expression 10 addE1 addP3 = .ok (some addE2, addP4) :=
    infix_step 9 addE1 addEc addP3 addP4 addP4 rfl hc4
  have it2 : exprLoop 11 .Lowest addE1 addP2 = exprLoop 10 .Lowest addE2 addP4 :=
    exprLoop_iter 10 .Lowest addE1 addE2 addP2 addP3 addP4 rfl rfl rfl hi2
  have hexp : parse_expression 13 .Lowest addP0 = .ok (some addE2, addP4) :=
    (expression_step 12 .Lowest addP0 addP0 addEa rfl rfl).trans
      (it1.trans (it2.trans (exprLoop_done 10 .Lowest addE2 addP4 rfl)))
  have hst : parse_statement 15 addP0 =
      .ok (some (.expressionStatement ⟨.Ident, "a"⟩ (some addE2)), addP4) :=
    (show parse_statement 15 addP0 = parse_expression_statement 14 addP0
      from rfl).trans (exprStatement_step 13 addP0 addP4 (some addE2) hexp rfl)
  have hloop : parseProgramLoop 16 [] addP0 =
      .ok (⟨[.expressionStatement ⟨.Ident, "a"⟩ (some addE2)]⟩, addP5) :=
    (programLoop_step 15 [] addP0 addP4 addP5 _ rfl hst rfl).trans
      (programLoop_done 15 _ addP5 rfl)
  simp only [runString, defaultFuel]
  rw [parse_program_start 16 ("a + b + c".data) addP0 h0, hloop]
  rfl

/-- Input of the product-vs-sum example. -/
def mulInp : List Char := "a + b * c".data

/-- Product-vs-sum run state 0. -/
def mulP0 : ParserState := ⟨⟨mulInp, 3, 4, ' '⟩, ⟨.Ident, "a"⟩, ⟨.Plus, "+"⟩, []⟩

/-- Product-vs-sum run state 1. -/
def mulP1 : ParserState := ⟨⟨mulInp, 5, 6, ' '⟩, ⟨.Plus, "+"⟩, ⟨.Ident, "b"⟩, []⟩

/-- Product-vs-sum run state 2. -/
def mulP2 : ParserState :=
  ⟨⟨mulInp, 7, 8, ' '⟩, ⟨.Ident, "b"⟩, ⟨.Asterisk, "*"⟩, []⟩

/-- Product-vs-sum run state 3. -/
def mulP3 : ParserState :=
  ⟨⟨mulInp, 9, 10, '\x00'⟩, ⟨.Asterisk, "*"⟩, ⟨.Ident, "c"⟩, []⟩

/-- Product-vs-sum run state 4. -/
def mulP4 : ParserState :=
  ⟨⟨mulInp, 10, 11, '\x00'⟩, ⟨.Ident, "c"⟩, ⟨.Eof, "\x00"⟩, []⟩

/-- Product-vs-sum run state 5. -/
def mulP5 : ParserState :=
  ⟨⟨mulInp, 11, 12, '\x00'⟩, ⟨.Eof, "\x00"⟩, ⟨.Eof, "\x00"⟩, []⟩

/-- Identifier a of the product-vs-sum example. -/
def mulEa : Expr := .identifier ⟨⟨.Ident, "a"⟩, "a"⟩

/-- Identifier b of the product-vs-sum example. -/
def mulEb : Expr := .identifier ⟨⟨.Ident, "b"⟩, "b"⟩

/-- Identifier c of the product-vs-sum example. -/
def mulEc : Expr := .identifier ⟨⟨.Ident, "c"⟩, "c"⟩

/-- The tighter product. -/
def mulEbc : Expr :=
  .infixExpression ⟨.Asterisk, "*"⟩ (some mulEb) "*" (some mulEc)

/-- The full tree: the product hangs under the sum. -/
def mulEabc : Expr := .infixExpression ⟨.Plus, "+"⟩ (some mulEa) "+" (some mulEbc)

set_option maxHeartbeats 1000000 in
/-- Round-trip helper: product binds tighter than sum. -/
theorem roundTrip4 : runString "a + b * c" = .ok "(a + (b * c))" := by
  have h0 : parser_new ("a + b * c".data) = .ok mulP0 := by rfl
  have hcc : parse_expression 7 .Product mulP4 = .ok (some mulEc, mulP4) :=
    (expression_step 6 .Product mulP4 mulP4 mulEc rfl rfl).trans
      (exprLoop_done 6 .Product mulEc mulP4 rfl)
  have hibc : parse_infix_expression 8 mulEb mulP3 = .ok (some mulEbc, mulP4) :=
    infix_step 7 mulEb mulEc mulP3 mulP4 mulP4 rfl hcc
  have hb : parse_expression 10 .Sum mulP2 = .ok (some mulEbc, mulP4) :=
    (expression_step 9 .Sum mulP2 mulP2 mulEb rfl rfl).trans
      ((exprLoop_iter 8 .Sum mulEb mulEbc mulP2 mulP3 mulP4 rfl rfl rfl
        hibc).trans (exprLoop_done 8 .Sum mulEbc mulP4 rfl))
  have hi1 : parse_infix_expression 11 mulEa mulP1 = .ok (some mulEabc, mulP4)
    := infix_step 10 mulEa mulEbc mulP1 mulP2 mulP4 rfl hb
  have hexp : parse_expression 13 .Lowest mulP0 = .ok (some mulEabc, mulP4) :=
    (expression_step 12 .Lowest mulP0 mulP0 mulEa rfl rfl).trans
      ((exprLoop_iter 11 .Lowest mulEa mulEabc mulP0 mulP1 mulP4 rfl rfl rfl
        hi1).trans (exprLoop_done 11 .Lowest mulEabc mulP4 rfl))
  have hst : parse_statement 15 mulP0 =
      .ok (some (.expressionStatement ⟨.Ident, "a"⟩ (some mulEabc)), mulP4) :=
    (show parse_statement 15 mulP0 = parse_expression_statement 14 mulP0
      from rfl).trans (exprStatement_step 13 mulP0 mulP4 (some mulEabc) hexp
        rfl)
  have hloop : parseProgramLoop 16 [] mulP0 =
      .ok (⟨[.expressionStatement ⟨.Ident, "a"⟩ (some mulEabc)]⟩, mulP5) :=
    (programLoop_step 15 [] mulP0 mulP4 mulP5 _ rfl hst rfl).trans
      (programLoop_done 15 _ mulP5 rfl)
  simp only [runString, defaultFuel]
  rw [parse_program_start 16 ("a + b * c".data) mulP0 h0, hloop]
  rfl

/-- Input of the explicit-grouping example. -/
def grpInp : List Char := "1 + (2 + 3) + 4".data

/-- Explicit-grouping run state 0. -/
def grpP0 : ParserState := ⟨⟨grpInp, 3, 4, ' '⟩, ⟨.Int, "1"⟩, ⟨.Plus, "+"⟩, []⟩

/-- Explicit-grouping run state 1. -/
def grpP1 : ParserState := ⟨⟨grpInp, 5, 6, '2'⟩, ⟨.Plus, "+"⟩, ⟨.Lparen, "("⟩, []⟩

/-- Explicit-grouping run state 2. -/
def grpP2 : ParserState := ⟨⟨grpInp, 6, 7, ' '⟩, ⟨.Lparen, "("⟩, ⟨.Int, "2"⟩, []⟩

/-- Explicit-grouping run state 3. -/
def grpP3 : ParserState := ⟨⟨grpInp, 8, 9, ' '⟩, ⟨.Int, "2"⟩, ⟨.Plus, "+"⟩, []⟩

/-- Explicit-grouping run state 4. -/
def grpP4 : ParserState := ⟨⟨grpInp, 10, 11, ')'⟩, ⟨.Plus, "+"⟩, ⟨.Int, "3"⟩, []⟩

/-- Explicit-grouping run state 5. -/
def grpP5 : ParserState := ⟨⟨grpInp, 11, 12, ' '⟩, ⟨.Int, "3"⟩, ⟨.Rparen, ")"⟩, []⟩

/-- Explicit-grouping run state 6. -/
def grpP6 : ParserState := ⟨⟨grpInp, 13, 14, ' '⟩, ⟨.Rparen, ")"⟩, ⟨.Plus, "+"⟩, []⟩

/-- Explicit-grouping run state 7. -/
def grpP7 : ParserState := ⟨⟨grpInp, 15, 16, '\x00'⟩, ⟨.Plus, "+"⟩, ⟨.Int, "4"⟩, []⟩

/-- Explicit-grouping run state 8. -/
def grpP8 : ParserState :=
  ⟨⟨grpInp, 16, 17, '\x00'⟩, ⟨.Int, "4"⟩, ⟨.Eof, "\x00"⟩, []⟩

/-- Explicit-grouping run state 9. -/
def grpP9 : ParserState :=
  ⟨⟨grpInp, 17, 18, '\x00'⟩, ⟨.Eof, "\x00"⟩, ⟨.Eof, "\x00"⟩, []⟩

/-- Integer literal 1. -/
def grpE1 : Expr := .integerLiteral ⟨.Int, "1"⟩ 1

/-- Integer literal 2. -/
def grpE2i : Expr := .integerLiteral ⟨.Int, "2"⟩ 2

/-- Integer literal 3. -/
def grpE3i : Expr := .integerLiteral ⟨.Int, "3"⟩ 3

/-- Integer literal 4. -/
def grpE4 : Expr := .integerLiteral ⟨.Int, "4"⟩ 4

/-- The parenthesised inner sum. -/
def grpEg : Expr := .infixExpression ⟨.Plus, "+"⟩ (some grpE2i) "+" (some grpE3i)

/-- The left part: 1 plus the group. -/
def grpEL : Expr := .infixExpression ⟨.Plus, "+"⟩ (some grpE1) "+" (some grpEg)

/-- The whole tree. -/
def grpEL2 : Expr := .infixExpression ⟨.Plus, "+"⟩ (some grpEL) "+" (some grpE4)

set_option maxHeartbeats 1000000 in
/-- Round-trip helper: explicit grouping survives. -/
theorem roundTrip5 :
    runString "1 + (2 + 3) + 4" = .ok "((1 + (2 + 3)) + 4)" := by
  have h0 : parser_new ("1 + (2 + 3) + 4".data) = .ok grpP0 := by rfl
  have hr3 : parse_expression 4 .Sum grpP5 = .ok (some grpE3i, grpP5) :=
    (expression_step 3 .Sum grpP5 grpP5 grpE3i rfl rfl).trans
      (exprLoop_done 3 .Sum grpE3i grpP5 rfl)
  have hii : parse_infix_expression 5 grpE2i grpP4 = .ok (some grpEg, grpP5) :=
    infix_step 4 grpE2i grpE3i grpP4 grpP5 grpP5 rfl hr3
  have hinner : parse_expression 7 .Lowest grpP3 = .ok (some grpEg, grpP5) :=
    (expression_step 6 .Lowest grpP3 grpP3 grpE2i rfl rfl).trans
      ((exprLoop_iter 5 .Lowest grpE2i grpEg grpP3 grpP4 grpP5 rfl rfl rfl
        hii).trans (exprLoop_done 5 .Lowest grpEg grpP5 rfl))
  have hgrp : parse_grouped_expression 8 grpP2 = .ok (some grpEg, grpP6) :=
    grouped_step 7 grpP2 grpP3 grpP6 grpP5 (some grpEg) rfl hinner rfl
  have hr : parse_expression 10 .Sum grpP2 = .ok (some grpEg, grpP6) :=
    (expression_step 9 .Sum grpP2 grpP6 grpEg rfl
      ((show callPrefixFn 9 .Lparen grpP2 = parse_grouped_expression 8 grpP2
        from rfl).trans hgrp)).trans (exprLoop_done 9 .Sum grpEg grpP6 rfl)
  have hi1 : parse_infix_expression 11 grpE1 grpP1 = .ok (some grpEL, grpP6) :=
    infix_step 10 grpE1 grpEg grpP1 grpP2 grpP6 rfl hr
  have it1 : exprLoop 12 .Lowest grpE1 grpP0 = exprLoop 11 .Lowest grpEL grpP6
    := exprLoop_iter 11 .Lowest grpE1 grpEL grpP0 grpP1 grpP6 rfl rfl rfl hi1
  have hc2 : parse_expression 9 .Sum grpP8 = .ok (some grpE4, grpP8) :=
    (expression_step 8 .Sum grpP8 grpP8 grpE4 rfl rfl).trans
      (exprLoop_done 8 .Sum grpE4 grpP8 rfl)
  have hi2 : parse_infix_expression 10 grpEL grpP7 = .ok (some grpEL2, grpP8)
    := infix_step 9 grpEL grpE4 grpP7 grpP8 grpP8 rfl hc2
  have it2 : exprLoop 11 .Lowest grpEL grpP6 = exprLoop 10 .Lowest grpEL2 grpP8
    := exprLoop_iter 10 .Lowest grpEL grpEL2 grpP6 grpP7 grpP8 rfl rfl rfl hi2
  have hexp : parse_expression 13 .Lowest grpP0 = .ok (some grpEL2, grpP8) :=
    (expression_step 12 .Lowest grpP0 grpP0 grpE1 rfl rfl).trans
      (it1.trans (it2.trans (exprLoop_done 10 .Lowest grpEL2 grpP8 rfl)))
  have hst : parse_statement 15 grpP0 =
      .ok (some (.expressionStatement ⟨.Int, "1"⟩ (some grpEL2)), grpP8) :=
    (show parse_statement 15 grpP0 = parse_expression_statement 14 grpP0
      from rfl).trans (exprStatement_step 13 grpP0 grpP8 (some grpEL2) hexp
        rfl)
  have hloop : parseProgramLoop 16 [] grpP0 =
      .ok (⟨[.expressionStatement ⟨.Int, "1"⟩ (some grpEL2)]⟩, grpP9) :=
    (programLoop_step 15 [] grpP0 grpP8 grpP9 _ rfl hst rfl).trans
      (programLoop_done 15 _ grpP9 rfl)
  simp only [runString, defaultFuel]
  rw [parse_program_start 16 ("1 + (2 + 3) + 4".data) grpP0 h0, hloop]
  rfl

/-- Input of the subtraction-chain example. -/
def subInp : List Char := "a - b - c".data

/-- Subtraction-chain run state 0. -/
def subP0 : ParserState := ⟨⟨subInp, 3, 4, ' '⟩, ⟨.Ident, "a"⟩, ⟨.Minus, "-"⟩, []⟩

/-- Subtraction-chain run state 1. -/
def subP1 : ParserState := ⟨⟨subInp, 5, 6, ' '⟩, ⟨.Minus, "-"⟩, ⟨.Ident, "b"⟩, []⟩

/-- Subtraction-chain run state 2. -/
def subP2 : ParserState := ⟨⟨subInp, 7, 8, ' '⟩, ⟨.Ident, "b"⟩, ⟨.Minus, "-"⟩, []⟩

/-- Subtraction-chain run state 3. -/
def subP3 : ParserState :=
  ⟨⟨subInp, 9, 10, '\x00'⟩, ⟨.Minus, "-"⟩, ⟨.Ident, "c"⟩, []⟩

/-- Subtraction-chain run state 4. -/
def subP4 : ParserState :=
  ⟨⟨subInp, 10, 11, '\x00'⟩, ⟨.Ident, "c"⟩, ⟨.Eof, "\x00"⟩, []⟩

/-- Subtraction-chain run state 5. -/
def subP5 : ParserState :=
  ⟨⟨subInp, 11, 12, '\x00'⟩, ⟨.Eof, "\x00"⟩, ⟨.Eof, "\x00"⟩, []⟩

/-- Identifier a of the subtraction chain. -/
def subEa : Expr := .identifier ⟨⟨.Ident, "a"⟩, "a"⟩

/-- Identifier b of the subtraction chain. -/
def subEb : Expr := .identifier ⟨⟨.Ident, "b"⟩, "b"⟩

/-- Identifier c of the subtraction chain. -/
def subEc : Expr := .identifier ⟨⟨.Ident, "c"⟩, "c"⟩

/-- The left-grouped first difference. -/
def subE1 : Expr := .infixExpression ⟨.Minus, "-"⟩ (some subEa) "-" (some subEb)

/-- The full left-grouped subtraction chain. -/
def subE2 : Expr := .infixExpression ⟨.Minus, "-"⟩ (some subE1) "-" (some subEc)

set_option maxHeartbeats 1000000 in
/-- Round-trip helper: same-precedence subtraction chain groups left. -/
theorem roundTrip6 : runString "a - b - c" = .ok "((a - b) - c)" := by
  have h0 : parser_new ("a - b - c".data) = .ok subP0 := by rfl
  have hb : parse_expression 10 .Sum subP2 = .ok (some subEb, subP2) :=
    (expression_step 9 .Sum subP2 subP2 subEb rfl rfl).trans
      (exprLoop_done 9 .Sum subEb subP2 rfl)
  have hi1 : parse_infix_expression 11 subEa subP1 = .ok (some subE1, subP2) :=
    infix_step 10 subEa subEb subP1 subP2 subP2 rfl hb
  have it1 : exprLoop 12 .Lowest subEa subP0 = exprLoop 11 .Lowest subE1 subP2 :=
    exprLoop_iter 11 .Lowest subEa subE1 subP0 subP1 subP2 rfl rfl rfl hi1
  have hc4 : parse_expression 9 .Sum subP4 = .ok (some subEc, subP4) :=
    (expression_step 8 .Sum subP4 subP4 subEc rfl rfl).trans
      (exprLoop_done 8 .Sum subEc subP4 rfl)
  have hi2 : parse_infix_expression 10 subE1 subP3 = .ok (some subE2, subP4) :=
    infix_step 9 subE1 subEc subP3 subP4 subP4 rfl hc4
  have it2 : exprLoop 11 .Lowest subE1 subP2 = exprLoop 10 .Lowest subE2 subP4 :=
    exprLoop_iter 10 .Lowest subE1 subE2 subP2 subP3 subP4 rfl rfl rfl hi2
  have hexp : parse_expression 13 .Lowest subP0 = .ok (some subE2, subP4) :=
    (expression_step 12 .Lowest subP0 subP0 subEa rfl rfl).trans
      (it1.trans (it2.trans (exprLoop_done 10 .Lowest subE2 subP4 rfl)))
  have hst : parse_statement 15 subP0 =
      .ok (some (.expressionStatement ⟨.Ident, "a"⟩ (some subE2)), subP4) :=
    (show parse_statement 15 subP0 = parse_expression_statement 14 subP0
      from rfl).trans (exprStatement_step 13 subP0 subP4 (some subE2) hexp
        rfl)
  have hloop : parseProgramLoop 16 [] subP0 =
      .ok (⟨[.expressionStatement ⟨.Ident, "a"⟩ (some subE2)]⟩, subP5) :=
    (programLoop_step 15 [] subP0 subP4 subP5 _ rfl hst rfl).trans
      (programLoop_done 15 _ subP5 rfl)
  simp only [runString, defaultFuel]
  rw [parse_program_start 16 ("a - b - c".data) subP0 h0, hloop]
  rfl

/-- Claim C6: parsing then stringifying respects precedence and left
associativity on the five spec examples, and same-precedence chains
group to the left (shown on the subtraction chain as well). -/
theorem c6_round_trip_precedence :
    runString "5" = .ok "5" ∧
    runString "-a * b" = .ok "((-a) * b)" ∧
    runString "a + b + c" = .ok "((a + b) + c)" ∧
    runString "a + b * c" = .ok "(a + (b * c))" ∧
    runString "1 + (2 + 3) + 4" = .ok "((1 + (2 + 3)) + 4)" ∧
    runString "a - b - c" = .ok "((a - b) - c)" :=
  ⟨roundTrip1, roundTrip2, roundTrip3, roundTrip4, roundTrip5, roundTrip6⟩

/-- Equation of the fueled skip loop at zero fuel. -/
theorem skipToSemicolon_zero (p : ParserState) :
    skipToSemicolon 0 p =
      if current_token_is p .Semicolon then .ok p else .noFuel := rfl

/-- Equation of the fueled skip loop at successor fuel. -/
theorem skipToSemicolon_succ (f : Nat) (p : ParserState) :
    skipToSemicolon (f + 1) p =
      if current_token_is p .Semicolon then .ok p
      else (parser_next_token p).bind (skipToSemicolon f) := rfl

/-- Once the lexer has consumed its input (read_position at or past the
byte length, current char NUL), next_token returns the Eof token and a
state of the same exhausted shape, forever. -/
theorem next_token_eofstable (inp : List Char) (pos rp : Nat)
    (h : byteLen inp ≤ rp) :
    next_token ⟨inp, pos, rp, '\x00'⟩ =
      .ok (⟨.Eof, "\x00"⟩, ⟨inp, rp, rp + 1, '\x00'⟩) := by
  have h0 : next_token ⟨inp, pos, rp, '\x00'⟩ =
      (read_char ⟨inp, pos, rp, '\x00'⟩).map
        (fun s2 => ((⟨.Eof, "\x00"⟩ : Token), s2)) := rfl
  rw [h0]
  simp [read_char, h]

/-- The parser advance on an exhausted lexer shifts in an Eof peek and
keeps the lexer exhausted. -/
theorem parser_next_token_eofstable (inp : List Char) (pos rp : Nat)
    (cur pk : Token) (errs : List String) (h : byteLen inp ≤ rp) :
    parser_next_token ⟨⟨inp, pos, rp, '\x00'⟩, cur, pk, errs⟩ =
      .ok ⟨⟨inp, rp, rp + 1, '\x00'⟩, pk, ⟨.Eof, "\x00"⟩, errs⟩ := by
  simp [parser_next_token, next_token_eofstable inp pos rp h]

/-- The skip-to-semicolon loop never terminates once the token stream
has degenerated to Eof forever: whatever the fuel, it runs out.  This is
the non-termination witness behind claim C4. -/
theorem skipToSemicolon_diverges (fuel : Nat) :
    ∀ p : ParserState, p.current_token.token_type ≠ .Semicolon →
      p.peek_token.token_type = .Eof → p.lexer.ch = '\x00' →
      byteLen p.lexer.input ≤ p.lexer.read_position →
      skipToSemicolon fuel p = .noFuel := by
  induction fuel with
  | zero =>
      intro p h1 _ _ _
      rw [skipToSemicolon_zero]
      simp [current_token_is, h1]
  | succ f ih =>
      intro p h1 h2 h3 h4
      obtain ⟨⟨inp, pos, rp, ch⟩, cur, pk, errs⟩ := p
      simp only at h1 h2 h3 h4
      subst h3
      rw [skipToSemicolon_succ]
      rw [if_neg (by simp [current_token_is, h1])]
      rw [parser_next_token_eofstable inp pos rp cur pk errs h4]
      simp only [Res.bind_ok]
      exact ih _ (by simp [h2]) rfl rfl (Nat.le_trans h4 (Nat.le_succ rp))

/-- Input of the unterminated variable statement. -/
def varInp : List Char := "var x = 5".data

/-- Unterminated-var run state after the two initial pulls. -/
def varP0 : ParserState := ⟨⟨varInp, 5, 6, ' '⟩, ⟨.Var, "var"⟩, ⟨.Ident, "x"⟩, []⟩

/-- Unterminated-var state at the head of the skip loop. -/
def varP2 : ParserState :=
  ⟨⟨varInp, 9, 10, '\x00'⟩, ⟨.Assign, "="⟩, ⟨.Int, "5"⟩, []⟩

/-- Unterminated-var state after one skip iteration. -/
def varP3 : ParserState :=
  ⟨⟨varInp, 10, 11, '\x00'⟩, ⟨.Int, "5"⟩, ⟨.Eof, "\x00"⟩, []⟩

/-- Unterminated-var state after two skip iterations: Eof forever. -/
def varP4 : ParserState :=
  ⟨⟨varInp, 11, 12, '\x00'⟩, ⟨.Eof, "\x00"⟩, ⟨.Eof, "\x00"⟩, []⟩

/-- Claim C4: the claim states that parse_program terminates on every
finite input, in particular on a variable-bind statement missing its
terminating semicolon.  The code violates this: on such input the
skip-to-semicolon loop of parse_var_statement waits for a Semicolon
token that never arrives (the exhausted lexer yields Eof forever), so
the parse runs out of any amount of fuel - the fueled model of an
infinite loop. -/
theorem c4_parse_program_diverges_without_semicolon (fuel : Nat) :
    parse_program fuel varInp = Res.noFuel := by
  have h0 : parser_new varInp = .ok varP0 := by rfl
  have hstart : parse_program fuel varInp = parseProgramLoop fuel [] varP0 := by
    simp [parse_program, h0, parseProgramLoop]
  rw [hstart]
  have hskip : ∀ g : Nat, skipToSemicolon g varP2 = .noFuel := by
    intro g
    cases g with
    | zero => rfl
    | succ g1 =>
        have h1 : skipToSemicolon (g1 + 1) varP2 = skipToSemicolon g1 varP3 :=
          by rfl
        rw [h1]
        cases g1 with
        | zero => rfl
        | succ g2 =>
            have h2 : skipToSemicolon (g2 + 1) varP3 =
                skipToSemicolon g2 varP4 := by rfl
            rw [h2]
            exact skipToSemicolon_diverges g2 varP4 (by decide) (by decide)
              (by decide) (by decide)
  cases fuel with
  | zero => rfl
  | succ f =>
      have hstep : parseProgramLoop (f + 1) [] varP0 =
          (parse_statement f varP0).bind fun x =>
            (parser_next_token x.2).bind fun p2 =>
              parseProgramLoop f ([] ++ x.1.toList) p2 := by rfl
      rw [hstep]
      cases f with
      | zero => rfl
      | succ g =>
          have hvar : parse_statement (g + 1) varP0 =
              (skipToSemicolon g varP2).bind fun p3 =>
                .ok (some (Stmt.varStatement ⟨.Var, "var"⟩
                  ⟨⟨.Ident, "x"⟩, "x"⟩ none), p3) := by rfl
          rw [hvar, hskip g]
          rfl

/-- Claim C8: the claim states that a true or false keyword in
expression position produces a dedicated BooleanLiteral node carrying
the truth value.  The code instead builds an Identifier node whose value
is the stringified result of current_token_is(True); the Boolean node of
src/ast/mod.rs is never constructed by the parser. -/
theorem c8_boolean_parsed_as_identifier :
    runProgram "true;" =
      .ok ([.expressionStatement ⟨.True, "true"⟩
        (some (.identifier ⟨⟨.True, "true"⟩, "true"⟩))], []) ∧
    runProgram "false;" =
      .ok ([.expressionStatement ⟨.False, "false"⟩
        (some (.identifier ⟨⟨.False, "false"⟩, "false"⟩))], []) := by
  exact ⟨by rfl, by rfl⟩

/-- Claim C7: expect_peek consumes the token and succeeds exactly when
the lookahead matches; on a mismatch it records exactly the template
diagnostic and changes nothing else (same lexer, same current and peek
tokens, one message appended). -/
theorem c7_expect_peek_spec (t : TokenType) (p : ParserState) :
    expect_peek t p =
      if p.peek_token.token_type = t then
        (parser_next_token p).map fun p2 => (true, p2)
      else
        .ok (false, { p with errors := p.errors ++
          ["expected next token to be " ++ tokenTypeDebug t ++ ", got " ++
           tokenTypeDebug p.peek_token.token_type ++ " instead"] }) := by
  by_cases h : p.peek_token.token_type = t
  · simp [expect_peek, peek_token_is, h]
  · simp [expect_peek, peek_token_is, peek_error, h]

/-- The function-literal node of the C9 counterexample: keyword def, one
parameter x, body the single identifier y. -/
def c9Fn : Expr :=
  .functionLiteral ⟨.Function, "def"⟩ [⟨⟨.Ident, "x"⟩, "x"⟩]
    (some (.mk ⟨.Lbrace, "\x7b"⟩
      [.expressionStatement ⟨.Ident, "y"⟩
        (some (.identifier ⟨⟨.Ident, "y"⟩, "y"⟩))]))

/-- Claim C9 counterexample: the claim renders a function literal as the
keyword, the parenthesised parameters, a space, then the body.  The code
emits no space: the example node renders to def(x)y, not def(x) y. -/
theorem c9_function_literal_space_counterexample :
    exprString c9Fn = "def(x)y" ∧ exprString c9Fn ≠ "def(x) y" := by
  exact ⟨rfl, by decide⟩

/-- Claim C9 as amended: the templates of every other node kind are as
claimed, and the function literal renders with no space between the
closing parenthesis of the parameter list and the body. -/
theorem c9_stringify_templates :
    (∀ (t : Token) (op : String) (r : Expr),
      exprString (.prefixExpression t op (some r)) =
        "(" ++ op ++ exprString r ++ ")") ∧
    (∀ (t : Token) (l : Expr) (op : String) (r : Expr),
      exprString (.infixExpression t (some l) op (some r)) =
        "(" ++ exprString l ++ " " ++ op ++ " " ++ exprString r ++ ")") ∧
    (∀ (t : Token) (c : Expr) (cs : Block),
      exprString (.ifExpression t (some c) (some cs) none) =
        "if " ++ exprString c ++ " " ++ blockString cs) ∧
    (∀ (t : Token) (c : Expr) (cs a : Block),
      exprString (.ifExpression t (some c) (some cs) (some a)) =
        "if " ++ exprString c ++ " " ++ blockString cs ++
          ("else " ++ blockString a)) ∧
    (∀ (t : Token) (ps : List Identifier) (b : Block),
      exprString (.functionLiteral t ps (some b)) =
        t.literal ++ "(" ++
          String.intercalate ", " (ps.map Identifier.string) ++ ")" ++
          blockString b) ∧
    (∀ (t : Token) (f : Expr) (args : List Expr),
      exprString (.callExpression t (some f) args) =
        exprString f ++ "(" ++ String.intercalate ", " (exprStrings args)
          ++ ")") := by
  refine ⟨fun _ _ _ => rfl, fun _ _ _ _ => rfl, ?_, fun _ _ _ _ => rfl,
    fun _ _ _ => rfl, fun _ _ _ => rfl⟩
  intro t c cs
  simp [exprString, optExprString, optBlockString, String.append_empty]

/-- A parser state whose lookahead is an arbitrary token standing in
parameter position, with a closing parenthesis as the next lexer
token. -/
def paramsState (t : Token) : ParserState :=
  ⟨⟨[')'], 0, 1, ')'⟩, ⟨.Semicolon, ";"⟩, t, []⟩

/-- Input of the missing-closing-parenthesis function literal. -/
def dfnInp : List Char := "def(x, y \x7b\x7d".data

/-- The expect diagnostic of the missing parenthesis. -/
def dfnErr : String := "expected next token to be Rparen, got Lbrace instead"

/-- Missing-parenthesis run state 0. -/
def dfnP0 : ParserState :=
  ⟨⟨dfnInp, 4, 5, 'x'⟩, ⟨.Function, "def"⟩, ⟨.Lparen, "("⟩, []⟩

/-- Missing-parenthesis run state 1. -/
def dfnP1 : ParserState :=
  ⟨⟨dfnInp, 5, 6, ','⟩, ⟨.Lparen, "("⟩, ⟨.Ident, "x"⟩, []⟩

/-- Missing-parenthesis state after the parameter list failed. -/
def dfnP2 : ParserState :=
  ⟨⟨dfnInp, 10, 11, '}'⟩, ⟨.Ident, "y"⟩, ⟨.Lbrace, "\x7b"⟩, [dfnErr]⟩

/-- Missing-parenthesis state after consuming the brace. -/
def dfnP3 : ParserState :=
  ⟨⟨dfnInp, 11, 12, '\x00'⟩, ⟨.Lbrace, "\x7b"⟩, ⟨.Rbrace, "\x7d"⟩, [dfnErr]⟩

/-- Missing-parenthesis state after the empty block. -/
def dfnP4 : ParserState :=
  ⟨⟨dfnInp, 12, 13, '\x00'⟩, ⟨.Rbrace, "\x7d"⟩, ⟨.Eof, "\x00"⟩, [dfnErr]⟩

/-- Missing-parenthesis final state. -/
def dfnP5 : ParserState :=
  ⟨⟨dfnInp, 13, 14, '\x00'⟩, ⟨.Eof, "\x00"⟩, ⟨.Eof, "\x00"⟩, [dfnErr]⟩

/-- The empty body block of the example. -/
def dfnBlk : Block := .mk ⟨.Lbrace, "\x7b"⟩ []

/-- The resulting function literal: parameters discarded. -/
def dfnEfn : Expr := .functionLiteral ⟨.Function, "def"⟩ [] (some dfnBlk)

set_option maxHeartbeats 1000000 in
/-- Helper for claim C10: integer tokens in parameter position are
accepted as identifiers carrying the literal text, with no
diagnostic. -/
theorem fnParamsIntLiteral : runProgram "def(1, 2) \x7b\x7d" =
    .ok ([.expressionStatement ⟨.Function, "def"⟩
      (some (.functionLiteral ⟨.Function, "def"⟩
        [⟨⟨.Int, "1"⟩, "1"⟩, ⟨⟨.Int, "2"⟩, "2"⟩]
        (some (.mk ⟨.Lbrace, "\x7b"⟩ []))))], []) := by rfl

set_option maxHeartbeats 1000000 in
/-- Helper for claim C10: when the closing parenthesis is missing the
collected parameters are discarded, the expect diagnostic is recorded,
and the literal still parses with an empty parameter list. -/
theorem fnParamsMissingRparen : runProgram "def(x, y \x7b\x7d" =
    .ok ([.expressionStatement ⟨.Function, "def"⟩ (some dfnEfn)], [dfnErr])
    := by
  have h0 : parser_new ("def(x, y \x7b\x7d".data) = .ok dfnP0 := by rfl
  have h2 : parse_function_parameters 10 dfnP1 = .ok ([], dfnP2) := by rfl
  have h4 : parse_block_statement 10 dfnP3 = .ok (some dfnBlk, dfnP4) := by rfl
  have hfn : parse_function_literal 11 dfnP0 = .ok (some dfnEfn, dfnP4) :=
    funcLit_step 10 dfnP0 dfnP1 dfnP2 dfnP3 dfnP4 [] (some dfnBlk) rfl h2 rfl
      h4
  have hexp : parse_expression 13 .Lowest dfnP0 = .ok (some dfnEfn, dfnP4) :=
    (expression_step 12 .Lowest dfnP0 dfnP4 dfnEfn rfl
      ((show callPrefixFn 12 .Function dfnP0 = parse_function_literal 11 dfnP0
        from rfl).trans hfn)).trans (exprLoop_done 12 .Lowest dfnEfn dfnP4 rfl)
  have hst : parse_statement 15 dfnP0 =
      .ok (some (.expressionStatement ⟨.Function, "def"⟩ (some dfnEfn)),
        dfnP4) :=
    (show parse_statement 15 dfnP0 = parse_expression_statement 14 dfnP0
      from rfl).trans (exprStatement_step 13 dfnP0 dfnP4 (some dfnEfn) hexp
        rfl)
  have hloop : parseProgramLoop 16 [] dfnP0 =
      .ok (⟨[.expressionStatement ⟨.Function, "def"⟩ (some dfnEfn)]⟩, dfnP5)
    :=
    (programLoop_step 15 [] dfnP0 dfnP4 dfnP5 _ rfl hst rfl).trans
      (programLoop_done 15 _ dfnP5 rfl)
  simp only [runProgram, defaultFuel]
  rw [parse_program_start 16 ("def(x, y \x7b\x7d".data) dfnP0 h0, hloop]
  rfl

/-- Claim C10: parameter parsing never checks token kinds - an arbitrary
non-Rparen token in parameter position becomes an Identifier carrying
its literal text with no diagnostic (shown for every token and fuel, and
concretely for integer literals), and a missing closing parenthesis
discards the collected parameters, returning an empty list next to the
expect diagnostic. -/
theorem c10_function_parameters (t : Token) (fuel : Nat)
    (h : t.token_type ≠ TokenType.Rparen) :
    ((parse_function_parameters fuel (paramsState t)).map
      (fun r => (r.1, r.2.errors)) = .ok ([⟨t, t.literal⟩], [])) ∧
    runProgram "def(1, 2) \x7b\x7d" =
      .ok ([.expressionStatement ⟨.Function, "def"⟩
        (some (.functionLiteral ⟨.Function, "def"⟩
          [⟨⟨.Int, "1"⟩, "1"⟩, ⟨⟨.Int, "2"⟩, "2"⟩]
          (some (.mk ⟨.Lbrace, "\x7b"⟩ []))))], []) ∧
    runProgram "def(x, y \x7b\x7d" =
      .ok ([.expressionStatement ⟨.Function, "def"⟩ (some dfnEfn)], [dfnErr])
    := by
  have hcond : ¬ (peek_token_is (paramsState t) .Rparen = true) := by
    simpa [paramsState, peek_token_is] using h
  refine ⟨?_, fnParamsIntLiteral, fnParamsMissingRparen⟩
  cases fuel with
  | zero =>
      simp only [parse_function_parameters]
      rw [if_neg hcond]
      rfl
  | succ f =>
      simp only [parse_function_parameters]
      rw [if_neg hcond]
      rfl

/-- Witness for claim C10 at the integer token with literal text 1 and
fuel five. -/
theorem c10_function_parameters_witness :
    (⟨TokenType.Int, "1"⟩ : Token).token_type ≠ TokenType.Rparen ∧
    (((parse_function_parameters 5 (paramsState ⟨TokenType.Int, "1"⟩)).map
      (fun r => (r.1, r.2.errors)) =
        .ok ([⟨⟨TokenType.Int, "1"⟩, "1"⟩], [])) ∧
    runProgram "def(1, 2) \x7b\x7d" =
      .ok ([.expressionStatement ⟨.Function, "def"⟩
        (some (.functionLiteral ⟨.Function, "def"⟩
          [⟨⟨.Int, "1"⟩, "1"⟩, ⟨⟨.Int, "2"⟩, "2"⟩]
          (some (.mk ⟨.Lbrace, "\x7b"⟩ []))))], []) ∧
    runProgram "def(x, y \x7b\x7d" =
      .ok ([.expressionStatement ⟨.Function, "def"⟩ (some dfnEfn)], [dfnErr]))
    :=
  ⟨by decide, c10_function_parameters ⟨TokenType.Int, "1"⟩ 5 (by decide)⟩

end Saber
